import Mathlib

/-!
Verification of the groceries-admin front-end logic.

Each definition is a shallow embedding of the corresponding TypeScript
function of the repository; doc comments name the source file.  JS objects
used as string-keyed records are modelled as insertion-ordered association
lists with unique keys; JS `number` fields that the program only treats as
integers are modelled as `Int`.
-/

namespace GroceriesAdmin

/-! ### JSON translation trees

The translation tables (`locales/en.json`, `locales/ar.json`) are nested
objects whose leaves are strings.  `TData.other` stands for any JS value
that is neither a string nor an object (number, boolean, null): the code
under study only asks `typeof v === "object"` and `typeof v === "string"`
of such a value, and both are false. -/

inductive TData where
  | str (s : String)
  | obj (entries : List (String × TData))
  | other

/-- JS `s.split(".")`: cut the string at every dot, keeping empty pieces
(`"".split(".")` is `[""]`). -/
def splitDotAux : List Char → List Char → List String
  | [], acc => [String.mk acc.reverse]
  | c :: cs, acc =>
    if c = '.' then String.mk acc.reverse :: splitDotAux cs []
    else splitDotAux cs (c :: acc)

/-- JS `key.split(".")`, used by `t` and `getNestedValue`. -/
def splitDot (s : String) : List String :=
  splitDotAux s.data []

/-- `entries[k]` on a JS object: the value of key `k`, or `undefined`. -/
def lookupKey (entries : List (String × TData)) (k : String) : Option TData :=
  (entries.find? (fun p => p.1 == k)).map (fun p => p.2)

/-- The navigation loop shared by `t` (hooks/useTranslation) and
`getNestedValue` (utils/test-translation.ts): starting from `v`, follow the
path while `translation && typeof translation === "object" && k in
translation`; `none` models reaching the `else` branch. -/
def navigate : TData → List String → Option TData
  | v, [] => some v
  | TData.obj entries, k :: ks =>
    match lookupKey entries k with
    | some v' => navigate v' ks
    | none => none
  | _, _ :: _ => none

/-- `t` from `hooks/useTranslation` (quoted in README.md).  The key is split
at `"."`; the path is followed through the current language's table; on the
first failure the whole path is retried on the English table (the inner
`for` loop) and the outer loop is left (`break`); a final value that is not
a string yields the key itself, as does a failed English retry. -/
def t (cur en : TData) (key : String) : String :=
  let keys := splitDot key
  match navigate cur keys with
  | some v =>
    match v with
    | TData.str s => s
    | _ => key
  | none =>
    match navigate en keys with
    | some (TData.str s) => s
    | _ => key

/-- The loop body of `getNestedValue` from `src/utils/test-translation.ts`:
follow the path, returning `""` as soon as a segment is missing or the
current value is not an object, and `""` at the end when the final value is
not a string. -/
def getNestedAux : TData → List String → String
  | v, [] =>
    match v with
    | TData.str s => s
    | _ => ""
  | TData.obj entries, k :: ks =>
    match lookupKey entries k with
    | some v' => getNestedAux v' ks
    | none => ""
  | _, _ :: _ => ""

/-- `getNestedValue` from `src/utils/test-translation.ts`. -/
def getNestedValue (obj : List (String × TData)) (path : String) : String :=
  getNestedAux (TData.obj obj) (splitDot path)

/-- `getNestedAux` returns the string that `navigate` finds, and `""` in
every other case. -/
theorem getNestedAux_eq_navigate (v : TData) (ks : List String) :
    getNestedAux v ks =
      match navigate v ks with
      | some (TData.str s) => s
      | _ => "" := by
  induction ks generalizing v with
  | nil =>
    cases v <;> simp [getNestedAux, navigate]
  | cons k ks ih =>
    cases v with
    | str s => simp [getNestedAux, navigate]
    | other => simp [getNestedAux, navigate]
    | obj entries =>
      simp only [getNestedAux, navigate]
      cases lookupKey entries k with
      | none => simp
      | some v' => simpa using ih v'

/-- A two-level table in the shape of `locales/en.json`, used to exercise
the translation theorems on concrete inputs. -/
def enTable : TData :=
  TData.obj
    [("common", TData.obj [("save", TData.str "Save"), ("extra", TData.str "Extra")]),
     ("navigation", TData.obj [("dashboard", TData.str "Dashboard")])]

/-- A table that lacks the key `common.extra`, so lookups on it fall back to
`enTable`. -/
def arTable : TData :=
  TData.obj [("common", TData.obj [("save", TData.str "SaveAr")])]

/-- C2: `t(key)` splits the key at `'.'` and follows the path through the
current language's table; a path resolving to a string yields that string; a
path that fails in the current language is retried in full on the English
table, yielding the string found there; and a path that fails in English as
well yields the key itself. -/
theorem t_spec (cur en : TData) (key : String) :
    (∀ s, navigate cur (splitDot key) = some (TData.str s) → t cur en key = s) ∧
    (navigate cur (splitDot key) = none →
      ∀ s, navigate en (splitDot key) = some (TData.str s) → t cur en key = s) ∧
    (navigate cur (splitDot key) = none → navigate en (splitDot key) = none →
      t cur en key = key) := by
  refine ⟨?_, ?_, ?_⟩
  · intro s h; simp [t, h]
  · intro h s h2; simp [t, h, h2]
  · intro h h2; simp [t, h, h2]

/-- Witness for C2: all three branches of `t_spec` fire on `arTable` over
`enTable`. -/
theorem t_spec_witness :
    t arTable enTable "common.save" = "SaveAr" ∧
    t arTable enTable "common.extra" = "Extra" ∧
    t arTable enTable "common.missing" = "common.missing" :=
  ⟨(t_spec arTable enTable "common.save").1 "SaveAr" rfl,
   (t_spec arTable enTable "common.extra").2.1 rfl "Extra" rfl,
   (t_spec arTable enTable "common.missing").2.2 rfl rfl⟩

/-- C10: `getNestedValue` is total by construction, returns the string found
by following the dot-separated path through nested objects, and returns `""`
whenever a segment is missing, an intermediate value is not an object, or
the final value is not a string. -/
theorem getNestedValue_spec (obj : List (String × TData)) (path : String) :
    (∀ s, navigate (TData.obj obj) (splitDot path) = some (TData.str s) →
      getNestedValue obj path = s) ∧
    ((∀ s, navigate (TData.obj obj) (splitDot path) ≠ some (TData.str s)) →
      getNestedValue obj path = "") := by
  constructor
  · intro s h
    simp [getNestedValue, getNestedAux_eq_navigate, h]
  · intro h
    rw [getNestedValue, getNestedAux_eq_navigate]
    cases hnav : navigate (TData.obj obj) (splitDot path) with
    | none => rfl
    | some v =>
      cases v with
      | str s => exact absurd hnav (h s)
      | obj entries => rfl
      | other => rfl

/-- Witness for C10: both branches of `getNestedValue_spec` on the sample
English table. -/
theorem getNestedValue_spec_witness :
    getNestedValue
      [("common", TData.obj [("save", TData.str "Save"), ("extra", TData.str "Extra")]),
       ("navigation", TData.obj [("dashboard", TData.str "Dashboard")])]
      "navigation.dashboard" = "Dashboard" ∧
    getNestedValue
      [("common", TData.obj [("save", TData.str "Save"), ("extra", TData.str "Extra")]),
       ("navigation", TData.obj [("dashboard", TData.str "Dashboard")])]
      "navigation.missing" = "" :=
  ⟨(getNestedValue_spec _ "navigation.dashboard").1 "Dashboard" rfl,
   (getNestedValue_spec _ "navigation.missing").2
     (fun s h => by simp [navigate, lookupKey, List.find?] at h)⟩

/-! ### Product variations (`components/products/ProductVariations.tsx`)

`Record<string, string>` attribute objects are association lists with
JS-object update semantics: `setKey` is `{ ...m, [k]: v }` (replace in
place, or append), `getKey` is `m[k]` (`none` for `undefined`), `delKey` is
`delete m[k]`. -/

structure VariationOption where
  id : String
  name : String
  values : List String
deriving DecidableEq, Repr

structure ProductVariant where
  id : String
  attributes : List (String × String)
  price : Int
  stock : Int
  sku : String
deriving DecidableEq, Repr

def getKey (m : List (String × String)) (k : String) : Option String :=
  (m.find? (fun p => p.1 == k)).map (fun p => p.2)

def setKey : List (String × String) → String → String → List (String × String)
  | [], k, v => [(k, v)]
  | p :: rest, k, v =>
    if p.1 == k then (k, v) :: rest else p :: setKey rest k v

def delKey (m : List (String × String)) (k : String) : List (String × String) :=
  m.filter (fun p => p.1 != k)

/-- `generateCombinations` from `generateVariants`: walk the options in
order; for each value of the current option, extend the current combination
with `{ ...currentCombination, [currentOption.name]: value }` and recurse;
an exhausted option list yields the one current combination. -/
def generateCombinations : List VariationOption → List (String × String) →
    List (List (String × String))
  | [], current => [current]
  | opt :: rest, current =>
    opt.values.flatMap (fun value => generateCombinations rest (setKey current opt.name value))

/-- `variants.find(v => Object.entries(combination).every(([key, value]) =>
v.attributes[key] === value))`'s predicate. -/
def matchesCombination (combination : List (String × String)) (v : ProductVariant) : Bool :=
  combination.all (fun p => getKey v.attributes p.1 == some p.2)

/-- The `combinations.map` step of `generateVariants`: reuse the first
existing variant whose attributes match the combination, otherwise build a
fresh variant with price 0, stock 0 and empty sku.  The source gives a fresh
variant the id `Date.now().toString() + Math.random().toString(36)...`;
that value is modelled by `freshId` applied to the combination's position. -/
def buildVariants (freshId : Nat → String) (variants : List ProductVariant) :
    Nat → List (List (String × String)) → List ProductVariant
  | _, [] => []
  | i, c :: cs =>
    (match variants.find? (matchesCombination c) with
     | some v => v
     | none => { id := freshId i, attributes := c, price := 0, stock := 0, sku := "" }) ::
    buildVariants freshId variants (i + 1) cs

/-- `generateVariants`: an empty option list returns without calling
`onChange` (modelled as `none`); otherwise the new variant list passed to
`onChange` is built from all combinations. -/
def generateVariants (freshId : Nat → String) (options : List VariationOption)
    (variants : List ProductVariant) : Option (List ProductVariant) :=
  if options.length = 0 then none
  else some (buildVariants freshId variants 0 (generateCombinations options []))

/-- `removeOption`: drop every option whose id is the given one; when an
option with that id exists, also delete the first such option's name from
every variant's attributes. -/
def removeOption (options : List VariationOption) (variants : List ProductVariant)
    (id : String) : List VariationOption × List ProductVariant :=
  let newOptions := options.filter (fun opt => opt.id != id)
  match options.find? (fun opt => opt.id == id) with
  | some optionToRemove =>
    (newOptions,
     variants.map (fun v => { v with attributes := delKey v.attributes optionToRemove.name }))
  | none => (newOptions, variants)

theorem getKey_nil (k : String) : getKey [] k = none := rfl

theorem getKey_cons (p : String × String) (rest : List (String × String)) (k : String) :
    getKey (p :: rest) k = if p.1 = k then some p.2 else getKey rest k := by
  by_cases h : p.1 = k
  · simp [getKey, List.find?_cons_of_pos, h]
  · simp [getKey, List.find?_cons_of_neg, h]

theorem getKey_setKey_self (m : List (String × String)) (k v : String) :
    getKey (setKey m k v) k = some v := by
  induction m with
  | nil => simp [setKey, getKey_cons]
  | cons p rest ih =>
    by_cases h : p.1 = k
    · simp [setKey, h, getKey_cons]
    · simp [setKey, h, getKey_cons, ih]

theorem getKey_setKey_ne (m : List (String × String)) (k k' v : String) (h : k' ≠ k) :
    getKey (setKey m k v) k' = getKey m k' := by
  induction m with
  | nil => simp [setKey, getKey_cons, getKey_nil, Ne.symm h]
  | cons p rest ih =>
    by_cases hp : p.1 = k
    · subst hp
      have hne : p.1 ≠ k' := Ne.symm h
      simp [setKey, getKey_cons, hne]
    · simp [setKey, hp, getKey_cons, ih]

theorem getKey_delKey_self (m : List (String × String)) (k : String) :
    getKey (delKey m k) k = none := by
  induction m with
  | nil => rfl
  | cons p rest ih =>
    by_cases h : p.1 = k
    · simpa [delKey, List.filter_cons, h] using ih
    · simp only [delKey, List.filter_cons] at ih ⊢
      simp [h, getKey_cons, ih]

theorem getKey_delKey_ne (m : List (String × String)) (k k' : String) (h : k' ≠ k) :
    getKey (delKey m k) k' = getKey m k' := by
  induction m with
  | nil => rfl
  | cons p rest ih =>
    simp only [delKey, List.filter_cons] at ih ⊢
    by_cases hp : p.1 = k
    · simp [hp, getKey_cons, Ne.symm h, ih]
    · simp [hp, getKey_cons, ih]

theorem length_buildVariants (freshId : Nat → String) (variants : List ProductVariant)
    (cs : List (List (String × String))) :
    ∀ i, (buildVariants freshId variants i cs).length = cs.length := by
  induction cs with
  | nil => intro i; rfl
  | cons c cs ih => intro i; simp [buildVariants, ih]

theorem length_flatMap_const {α β : Type} (l : List α) (g : α → List β) (n : Nat)
    (h : ∀ a ∈ l, (g a).length = n) : (l.flatMap g).length = l.length * n := by
  induction l with
  | nil => simp
  | cons a l ih =>
    simp only [List.flatMap_cons, List.length_append, List.length_cons]
    rw [h a (List.mem_cons_self a l), ih (fun b hb => h b (List.mem_cons_of_mem a hb)),
      Nat.succ_mul, Nat.add_comm]

theorem length_generateCombinations (options : List VariationOption) :
    ∀ current, (generateCombinations options current).length =
      (options.map (fun o => o.values.length)).prod := by
  induction options with
  | nil => intro current; rfl
  | cons opt rest ih =>
    intro current
    simp only [generateCombinations, List.map_cons, List.prod_cons]
    exact length_flatMap_const opt.values _ _ (fun v _ => ih (setKey current opt.name v))

theorem getKey_generateCombinations_of_not_mem (options : List VariationOption) (k : String)
    (hk : k ∉ options.map VariationOption.name) :
    ∀ current c, c ∈ generateCombinations options current → getKey c k = getKey current k := by
  induction options with
  | nil =>
    intro current c hc
    simp [generateCombinations] at hc
    subst hc; rfl
  | cons opt rest ih =>
    intro current c hc
    simp only [generateCombinations, List.mem_flatMap] at hc
    obtain ⟨v, hv, hc⟩ := hc
    have hk' : k ∉ rest.map VariationOption.name := fun h =>
      hk (List.mem_cons_of_mem _ h)
    have hne : k ≠ opt.name := fun h => hk (by simp [h])
    rw [ih hk' _ c hc, getKey_setKey_ne _ _ _ _ hne]

theorem getKey_generateCombinations_attr (options : List VariationOption)
    (hnd : (options.map VariationOption.name).Nodup) :
    ∀ current c, c ∈ generateCombinations options current →
      ∀ o ∈ options, ∃ val ∈ o.values, getKey c o.name = some val := by
  induction options with
  | nil => intro current c _ o ho; exact absurd ho (List.not_mem_nil o)
  | cons opt rest ih =>
    intro current c hc o ho
    simp only [generateCombinations, List.mem_flatMap] at hc
    obtain ⟨v, hv, hc⟩ := hc
    rw [List.map_cons] at hnd
    have hnd1 : opt.name ∉ rest.map VariationOption.name := (List.nodup_cons.mp hnd).1
    have hnd2 : (rest.map VariationOption.name).Nodup := (List.nodup_cons.mp hnd).2
    rcases List.mem_cons.mp ho with rfl | ho'
    · refine ⟨v, hv, ?_⟩
      rw [getKey_generateCombinations_of_not_mem rest o.name hnd1 _ c hc,
        getKey_setKey_self]
    · exact ih hnd2 _ c hc o ho'

theorem mem_buildVariants (freshId : Nat → String) (variants : List ProductVariant)
    (w : ProductVariant) :
    ∀ cs i, w ∈ buildVariants freshId variants i cs →
      ∃ c ∈ cs, variants.find? (matchesCombination c) = some w ∨
        (w.attributes = c ∧ w.price = 0 ∧ w.stock = 0 ∧ w.sku = "") := by
  intro cs
  induction cs with
  | nil => intro i h; exact absurd h (List.not_mem_nil w)
  | cons c cs ih =>
    intro i h
    rcases List.mem_cons.mp h with h1 | h2
    · refine ⟨c, List.mem_cons_self c cs, ?_⟩
      cases hf : variants.find? (matchesCombination c) with
      | some v =>
        left
        have h1' : w = v := by simpa [buildVariants, hf] using h1
        exact congrArg some h1'.symm
      | none =>
        right
        have h1' : w = { id := freshId i, attributes := c, price := 0, stock := 0, sku := "" } := by
          simpa [buildVariants, hf] using h1
        subst h1'
        exact ⟨rfl, rfl, rfl, rfl⟩
    · obtain ⟨c', hc', hw⟩ := ih (i + 1) h2
      exact ⟨c', List.mem_cons_of_mem c hc', hw⟩

theorem matchesCombination_getKey (c : List (String × String)) (v : ProductVariant)
    (hm : matchesCombination c v = true) (k val : String) (hk : getKey c k = some val) :
    getKey v.attributes k = some val := by
  simp only [getKey, Option.map_eq_some'] at hk
  obtain ⟨p, hp, hval⟩ := hk
  have hpk : p.1 = k := by
    have := List.find?_some hp
    simpa using this
  have hpc : p ∈ c := List.mem_of_find?_eq_some hp
  have := (List.all_eq_true.mp hm) p hpc
  simp only [beq_iff_eq] at this
  rw [← hpk, ← hval]
  exact this

/-- Two options that share the name "A" (the component's `addOption` rejects
duplicate names, but `generateVariants` itself does not). -/
def dupNameOptions : List VariationOption :=
  [{ id := "1", name := "A", values := ["x"] }, { id := "2", name := "A", values := ["y"] }]

/-- The single variant produced from `dupNameOptions`. -/
def dupNameVariant : ProductVariant :=
  { id := "f", attributes := [("A", "y")], price := 0, stock := 0, sku := "" }

/-- C1 counterexample: on `dupNameOptions` — a non-empty option list whose
value lists are non-empty — the single generated variant maps the first
option's name "A" to "y", which is not among that option's values `["x"]`:
the later option overwrites the earlier one in the combination record, so
the claim as stated fails when two options share a name. -/
theorem generateVariants_dup_name_cex :
    generateVariants (fun _ => "f") dupNameOptions [] = some [dupNameVariant] ∧
    ¬ (∀ w ∈ [dupNameVariant],
        ∀ o ∈ dupNameOptions, ∃ val ∈ o.values, getKey w.attributes o.name = some val) := by
  constructor
  · rfl
  · intro h
    obtain ⟨val, hval, hkey⟩ :=
      h _ (List.mem_cons_self _ _) _ (List.mem_cons_self _ _)
    simp only [dupNameOptions, List.mem_singleton] at hval
    rw [show val = "x" from by simpa using hval] at hkey
    simp [dupNameVariant, getKey_cons] at hkey

/-- C1 (amended): provided the options' names are pairwise distinct, for
every non-empty list of variation options, each having a non-empty list of
values, `generateVariants` produces exactly one variant per element of the
Cartesian product of the value lists (the output length is the product of
the value-list lengths), and every produced variant's attributes record maps
each option's name to exactly one of that option's values. -/
theorem generateVariants_cartesian (freshId : Nat → String)
    (variants : List ProductVariant) (options : List VariationOption)
    (out : List ProductVariant)
    (hne : options ≠ [])
    (_hvals : ∀ o ∈ options, o.values ≠ [])
    (hnames : (options.map VariationOption.name).Nodup)
    (hout : generateVariants freshId options variants = some out) :
    out.length = (options.map (fun o => o.values.length)).prod ∧
    ∀ w ∈ out, ∀ o ∈ options, ∃ val ∈ o.values, getKey w.attributes o.name = some val := by
  have hlen : ¬ options.length = 0 := fun h => hne (List.length_eq_zero.mp h)
  rw [generateVariants, if_neg hlen, Option.some_inj] at hout
  subst hout
  constructor
  · rw [length_buildVariants, length_generateCombinations]
  · intro w hw o ho
    obtain ⟨c, hc, hcase⟩ := mem_buildVariants freshId variants w _ 0 hw
    obtain ⟨val, hval, hkey⟩ := getKey_generateCombinations_attr options hnames [] c hc o ho
    rcases hcase with hfind | ⟨hattr, _, _, _⟩
    · have hm : matchesCombination c w = true := List.find?_some hfind
      exact ⟨val, hval, matchesCombination_getKey c w hm o.name val hkey⟩
    · exact ⟨val, hval, by rw [hattr]; exact hkey⟩

def witnessOptions : List VariationOption :=
  [{ id := "1", name := "Color", values := ["red", "blue"] },
   { id := "2", name := "Size", values := ["s"] }]

def witnessOut : List ProductVariant :=
  [{ id := "f", attributes := [("Color", "red"), ("Size", "s")], price := 0, stock := 0,
     sku := "" },
   { id := "f", attributes := [("Color", "blue"), ("Size", "s")], price := 0, stock := 0,
     sku := "" }]

/-- Witness for the amended C1 on a concrete two-option catalogue. -/
theorem generateVariants_cartesian_witness :
    witnessOut.length = (witnessOptions.map (fun o => o.values.length)).prod ∧
    ∀ w ∈ witnessOut, ∀ o ∈ witnessOptions,
      ∃ val ∈ o.values, getKey w.attributes o.name = some val :=
  generateVariants_cartesian (fun _ => "f") [] witnessOptions witnessOut
    (by decide) (by decide) (by decide) rfl

theorem buildVariants_get (freshId : Nat → String) (variants : List ProductVariant) :
    ∀ (cs : List (List (String × String))) (i j : Nat) (hj : j < cs.length)
      (hj' : j < (buildVariants freshId variants i cs).length),
      (buildVariants freshId variants i cs).get ⟨j, hj'⟩ =
        match variants.find? (matchesCombination (cs.get ⟨j, hj⟩)) with
        | some v => v
        | none =>
          { id := freshId (i + j), attributes := cs.get ⟨j, hj⟩, price := 0, stock := 0,
            sku := "" } := by
  intro cs
  induction cs with
  | nil => intro i j hj; exact absurd hj (Nat.not_lt_zero j)
  | cons c cs ih =>
    intro i j hj hj'
    cases j with
    | zero => simp [buildVariants]
    | succ j =>
      have hj2 : j < cs.length := Nat.lt_of_succ_lt_succ hj
      have hj2' : j < (buildVariants freshId variants (i + 1) cs).length := by
        rw [length_buildVariants]; exact hj2
      have step :
          (buildVariants freshId variants i (c :: cs)).get ⟨j + 1, hj'⟩ =
            (buildVariants freshId variants (i + 1) cs).get ⟨j, hj2'⟩ := rfl
      rw [step, ih (i + 1) j hj2 hj2',
        show i + 1 + j = i + (j + 1) from by omega]
      rfl

/-- C3: each generated combination that matches some existing variant puts a
matching existing variant in the output unchanged (its id, price, stock and
sku are those of the stored variant); each combination matching no existing
variant yields a fresh variant carrying exactly that combination, price 0,
stock 0 and empty sku. -/
theorem generateVariants_preserves_existing (freshId : Nat → String)
    (variants : List ProductVariant) (options : List VariationOption)
    (out : List ProductVariant)
    (hout : generateVariants freshId options variants = some out) :
    out.length = (generateCombinations options []).length ∧
    ∀ (j : Nat) (hj : j < (generateCombinations options []).length)
      (hj' : j < out.length),
      ((∃ v ∈ variants,
          matchesCombination ((generateCombinations options []).get ⟨j, hj⟩) v = true) →
        ∃ v ∈ variants,
          matchesCombination ((generateCombinations options []).get ⟨j, hj⟩) v = true ∧
          out.get ⟨j, hj'⟩ = v) ∧
      ((∀ v ∈ variants,
          matchesCombination ((generateCombinations options []).get ⟨j, hj⟩) v = false) →
        (out.get ⟨j, hj'⟩).attributes = (generateCombinations options []).get ⟨j, hj⟩ ∧
        (out.get ⟨j, hj'⟩).price = 0 ∧ (out.get ⟨j, hj'⟩).stock = 0 ∧
        (out.get ⟨j, hj'⟩).sku = "") := by
  have hifsplit : generateVariants freshId options variants = none ∨
      out = buildVariants freshId variants 0 (generateCombinations options []) := by
    rw [generateVariants] at hout ⊢
    by_cases h : options.length = 0
    · exact Or.inl (by rw [if_pos h])
    · right
      rw [if_neg h, Option.some_inj] at hout
      exact hout.symm
  rcases hifsplit with hnone | rfl
  · rw [hout] at hnone; exact absurd hnone (by simp)
  constructor
  · exact length_buildVariants freshId variants _ 0
  · intro j hj hj'
    rw [buildVariants_get freshId variants _ 0 j hj hj']
    set c := (generateCombinations options []).get ⟨j, hj⟩ with hc
    cases hf : variants.find? (matchesCombination c) with
    | some v =>
      constructor
      · intro _
        exact ⟨v, List.mem_of_find?_eq_some hf, List.find?_some hf, rfl⟩
      · intro hall
        have := hall v (List.mem_of_find?_eq_some hf)
        rw [List.find?_some hf] at this
        exact absurd this (by simp)
    | none =>
      constructor
      · intro ⟨v, hv, hm⟩
        have := List.find?_eq_none.mp hf v hv
        exact absurd hm this
      · intro _
        exact ⟨rfl, rfl, rfl, rfl⟩

def witnessExisting : ProductVariant :=
  { id := "keep", attributes := [("Color", "red")], price := 5, stock := 7, sku := "SKU-1" }

def witnessOptions2 : List VariationOption :=
  [{ id := "1", name := "Color", values := ["red", "blue"] }]

/-- Witness for C3: the combination `Color=red` matches the stored variant
`witnessExisting`, which reappears unchanged at position 0, while `Color=blue`
matches nothing and yields a zeroed fresh variant at position 1. -/
theorem generateVariants_preserves_existing_witness :
    (∃ v ∈ [witnessExisting],
      matchesCombination ((generateCombinations witnessOptions2 []).get ⟨0, by decide⟩) v
          = true ∧
      (buildVariants (fun _ => "f") [witnessExisting] 0
          (generateCombinations witnessOptions2 [])).get ⟨0, by decide⟩ = v) ∧
    ((buildVariants (fun _ => "f") [witnessExisting] 0
        (generateCombinations witnessOptions2 [])).get ⟨1, by decide⟩).price = 0 :=
  have H := generateVariants_preserves_existing (fun _ => "f") [witnessExisting]
    witnessOptions2
    (buildVariants (fun _ => "f") [witnessExisting] 0 (generateCombinations witnessOptions2 []))
    rfl
  ⟨(H.2 0 (by decide) (by decide)).1 ⟨witnessExisting, by decide, by decide⟩,
   ((H.2 1 (by decide) (by decide)).2 (by decide)).2.1⟩

theorem find?_id_of_nodup (options : List VariationOption) (i : String)
    (opt : VariationOption) (hmem : opt ∈ options) (hid : opt.id = i)
    (hnd : (options.map VariationOption.id).Nodup) :
    options.find? (fun o => o.id == i) = some opt := by
  induction options with
  | nil => exact absurd hmem (List.not_mem_nil opt)
  | cons o rest ih =>
    rw [List.map_cons] at hnd
    have hnd1 := (List.nodup_cons.mp hnd).1
    have hnd2 := (List.nodup_cons.mp hnd).2
    rcases List.mem_cons.mp hmem with rfl | hmem'
    · exact List.find?_cons_of_pos rest (by simp [hid])
    · have hne : ¬ o.id = i := fun h => by
        apply hnd1
        rw [h, ← hid]
        exact List.mem_map_of_mem VariationOption.id hmem'
      rw [List.find?_cons_of_neg rest (by simp [hne])]
      exact ih hmem' hnd2

theorem filter_id_eq_erase (options : List VariationOption) (i : String)
    (opt : VariationOption) (hmem : opt ∈ options) (hid : opt.id = i)
    (hnd : (options.map VariationOption.id).Nodup) :
    options.filter (fun o => o.id != i) = options.erase opt := by
  induction options with
  | nil => rfl
  | cons o rest ih =>
    rw [List.map_cons] at hnd
    have hnd1 := (List.nodup_cons.mp hnd).1
    have hnd2 := (List.nodup_cons.mp hnd).2
    rcases List.mem_cons.mp hmem with rfl | hmem'
    · rw [List.filter_cons, if_neg (by simp [hid]), List.erase_cons_head]
      apply List.filter_eq_self.mpr
      intro o' ho'
      have : ¬ o'.id = i := fun h => by
        apply hnd1
        rw [hid, ← h]
        exact List.mem_map_of_mem VariationOption.id ho'
      simp [this]
    · have hne : ¬ o.id = i := fun h => by
        apply hnd1
        rw [h, ← hid]
        exact List.mem_map_of_mem VariationOption.id hmem'
      have hneq : o ≠ opt := fun h => hne (by rw [h, hid])
      rw [List.filter_cons, if_pos (by simp [hne]),
        List.erase_cons_tail (by simp [hneq]), ih hmem' hnd2]

theorem forall₂_map_of_mem {α β : Type} (l : List α) (f : α → β) (R : α → β → Prop)
    (h : ∀ a ∈ l, R a (f a)) : List.Forall₂ R l (l.map f) := by
  induction l with
  | nil => exact List.Forall₂.nil
  | cons a l ih =>
    exact List.Forall₂.cons (h a (List.mem_cons_self a l))
      (ih (fun b hb => h b (List.mem_cons_of_mem a hb)))

/-- Two options that share the id "1" (ids come from `Date.now()`, which the
component assumes distinct). -/
def dupIdOptions : List VariationOption :=
  [{ id := "1", name := "A", values := ["x"] }, { id := "1", name := "B", values := ["y"] }]

/-- C9 counterexample: the id "1" is present in `dupIdOptions`, but
`removeOption` empties the list — it removes both options carrying that id,
not exactly the one option, so the claim as stated fails when two options
share an id. -/
theorem removeOption_dup_id_cex :
    (∃ o ∈ dupIdOptions, o.id = "1") ∧
    (removeOption dupIdOptions [] "1").1 = [] ∧
    ∀ o ∈ dupIdOptions, o.id = "1" → dupIdOptions.erase o ≠ [] := by
  refine ⟨⟨{ id := "1", name := "A", values := ["x"] }, by decide, rfl⟩, rfl, ?_⟩
  decide

/-- C9 (amended): provided the options' ids are pairwise distinct, for every
option id present in the list `removeOption(id)` removes exactly that option
and deletes exactly that option's name from every variant's attributes,
leaving each variant's remaining attributes, price, stock, sku and id
unchanged; when no option has that id, options and variants are passed
through unchanged. -/
theorem removeOption_spec (options : List VariationOption)
    (variants : List ProductVariant) (i : String) :
    (∀ opt ∈ options, opt.id = i → (options.map VariationOption.id).Nodup →
      (removeOption options variants i).1 = options.erase opt ∧
      List.Forall₂ (fun v w =>
          w.id = v.id ∧ w.price = v.price ∧ w.stock = v.stock ∧ w.sku = v.sku ∧
          getKey w.attributes opt.name = none ∧
          ∀ k, k ≠ opt.name → getKey w.attributes k = getKey v.attributes k)
        variants (removeOption options variants i).2) ∧
    ((∀ opt ∈ options, opt.id ≠ i) → removeOption options variants i = (options, variants)) := by
  constructor
  · intro opt hmem hid hnd
    rw [removeOption, find?_id_of_nodup options i opt hmem hid hnd]
    constructor
    · exact filter_id_eq_erase options i opt hmem hid hnd
    · apply forall₂_map_of_mem
      intro v _
      refine ⟨rfl, rfl, rfl, rfl, getKey_delKey_self v.attributes opt.name, ?_⟩
      intro k hk
      exact getKey_delKey_ne v.attributes opt.name k hk
  · intro h
    have hfind : options.find? (fun o => o.id == i) = none :=
      List.find?_eq_none.mpr (fun o ho => by simp [h o ho])
    rw [removeOption, hfind]
    have : options.filter (fun o => o.id != i) = options :=
      List.filter_eq_self.mpr (fun o ho => by simp [h o ho])
    rw [this]

/-- A stored variant carrying both a `Color` and a `Size` attribute. -/
def witnessVariant : ProductVariant :=
  { id := "v", attributes := [("Color", "red"), ("Size", "s")], price := 3, stock := 4,
    sku := "K" }

/-- Witness for the amended C9: removing id "2" from the two-option
catalogue erases the `Size` option and strips `Size` from the stored
variant, and removing an absent id changes nothing. -/
theorem removeOption_spec_witness :
    ((removeOption witnessOptions [witnessVariant] "2").1 =
        witnessOptions.erase { id := "2", name := "Size", values := ["s"] } ∧
      List.Forall₂ (fun v w =>
          w.id = v.id ∧ w.price = v.price ∧ w.stock = v.stock ∧ w.sku = v.sku ∧
          getKey w.attributes "Size" = none ∧
          ∀ k, k ≠ "Size" → getKey w.attributes k = getKey v.attributes k)
        [witnessVariant] (removeOption witnessOptions [witnessVariant] "2").2) ∧
    removeOption witnessOptions [] "9" = (witnessOptions, []) :=
  ⟨(removeOption_spec witnessOptions [witnessVariant] "2").1
      { id := "2", name := "Size", values := ["s"] } (by decide) rfl (by decide),
   (removeOption_spec witnessOptions [] "9").2 (by decide)⟩

/-! ### Product slice (`src/store/slices/productSlice.ts`)

The slice state, mirroring the `ProductState` interface; `Product` and
`ProductFilter` mirror the interfaces of `services/productService.ts`.
JS `number` fields (`price`, `stock_quantity`, pagination counters) are
modelled as `Int`, so `total -= 1` is exact subtraction. -/

inductive AttrValue where
  | str (s : String)
  | num (n : Int)
  | boolean (b : Bool)
deriving DecidableEq, Repr

structure Product where
  id : String
  name : String
  description : String
  price : Int
  images : Option (List String)
  categories : List String
  stock_quantity : Int
  sku : Option String
  attributes : Option (List (String × AttrValue))
  created_at : String
  updated_at : String
deriving DecidableEq, Repr

inductive SortOrder where
  | asc
  | desc
deriving DecidableEq, Repr

structure ProductFilter where
  categoryId : Option String
  minPrice : Option Int
  maxPrice : Option Int
  search : Option String
  sortBy : Option String
  sortOrder : Option SortOrder
  page : Option Int
  limit : Option Int
deriving DecidableEq, Repr

structure Pagination where
  total : Int
  page : Int
  limit : Int
  totalPages : Int
deriving DecidableEq, Repr

structure ProductState where
  products : List Product
  currentProduct : Option Product
  loading : Bool
  error : Option String
  pagination : Pagination
  filters : ProductFilter
deriving DecidableEq, Repr

/-- JS `m || fallback` on an optional string: the fallback is used when the
string is absent (`undefined`) or empty (falsy). -/
def jsOr (m : Option String) (fallback : String) : String :=
  match m with
  | some s => if s = "" then fallback else s
  | none => fallback

/-- Every `.pending` case of the product slice is the same two assignments:
`state.loading = true; state.error = null`. -/
def productPending (s : ProductState) : ProductState :=
  { s with loading := true, error := none }

/-- `deleteProduct.fulfilled`: `action.payload` is the deleted product id. -/
def deleteProductFulfilled (s : ProductState) (payload : String) : ProductState :=
  { s with
    loading := false,
    products := s.products.filter (fun p => p.id != payload),
    pagination := { s.pagination with total := s.pagination.total - 1 },
    currentProduct :=
      match s.currentProduct with
      | some p => if p.id == payload then none else some p
      | none => none }

/-- `fetchProducts.rejected`. -/
def fetchProductsRejected (msg : Option String) (s : ProductState) : ProductState :=
  { s with loading := false, error := some (jsOr msg "Failed to fetch products") }

/-- `fetchProductById.rejected`. -/
def fetchProductByIdRejected (msg : Option String) (s : ProductState) : ProductState :=
  { s with loading := false, error := some (jsOr msg "Failed to fetch product") }

/-- `createProduct.rejected`. -/
def createProductRejected (msg : Option String) (s : ProductState) : ProductState :=
  { s with loading := false, error := some (jsOr msg "Failed to create product") }

/-- `updateProduct.rejected`. -/
def updateProductRejected (msg : Option String) (s : ProductState) : ProductState :=
  { s with loading := false, error := some (jsOr msg "Failed to update product") }

/-- `deleteProduct.rejected`. -/
def deleteProductRejected (msg : Option String) (s : ProductState) : ProductState :=
  { s with loading := false, error := some (jsOr msg "Failed to delete product") }

/-- `updateProductStock.rejected`. -/
def updateProductStockRejected (msg : Option String) (s : ProductState) : ProductState :=
  { s with loading := false, error := some (jsOr msg "Failed to update stock") }

/-- `uploadProductImage.rejected`. -/
def uploadProductImageRejected (msg : Option String) (s : ProductState) : ProductState :=
  { s with loading := false, error := some (jsOr msg "Failed to upload image") }

/-- `deleteProductImage.rejected`. -/
def deleteProductImageRejected (msg : Option String) (s : ProductState) : ProductState :=
  { s with loading := false, error := some (jsOr msg "Failed to delete image") }

/-- The eight async thunks of the product slice, by their rejected cases. -/
def productRejectedCases : List (Option String → ProductState → ProductState) :=
  [fetchProductsRejected, fetchProductByIdRejected, createProductRejected,
   updateProductRejected, deleteProductRejected, updateProductStockRejected,
   uploadProductImageRejected, deleteProductImageRejected]

/-- C5: after a fulfilled `deleteProduct` thunk with payload `x`, the
products array loses exactly the products with id `x`, `pagination.total`
drops by exactly 1 whether or not such a product was present,
`currentProduct` becomes null exactly when it held a product with id `x`
(and keeps its product otherwise), loading is false, and filters and the
other pagination fields are untouched. -/
theorem deleteProduct_fulfilled_spec (s : ProductState) (x : String) :
    (deleteProductFulfilled s x).products = s.products.filter (fun p => decide (p.id ≠ x)) ∧
    (deleteProductFulfilled s x).pagination.total = s.pagination.total - 1 ∧
    (deleteProductFulfilled s x).loading = false ∧
    (∀ p, s.currentProduct = some p → p.id = x →
      (deleteProductFulfilled s x).currentProduct = none) ∧
    (∀ p, s.currentProduct = some p → p.id ≠ x →
      (deleteProductFulfilled s x).currentProduct = some p) ∧
    (s.currentProduct = none → (deleteProductFulfilled s x).currentProduct = none) ∧
    (deleteProductFulfilled s x).filters = s.filters ∧
    (deleteProductFulfilled s x).pagination.page = s.pagination.page ∧
    (deleteProductFulfilled s x).pagination.limit = s.pagination.limit ∧
    (deleteProductFulfilled s x).pagination.totalPages = s.pagination.totalPages := by
  refine ⟨?_, rfl, rfl, ?_, ?_, ?_, rfl, rfl, rfl, rfl⟩
  · have : (fun p : Product => p.id != x) = (fun p : Product => decide (p.id ≠ x)) := by
      funext p
      simp only [bne]
      by_cases h : p.id = x <;> simp [h]
    rw [deleteProductFulfilled]
    simp only [this]
  · intro p hp hid
    simp [deleteProductFulfilled, hp, hid]
  · intro p hp hid
    simp [deleteProductFulfilled, hp, hid]
  · intro h
    simp [deleteProductFulfilled, h]

def exampleProduct : Product :=
  { id := "x", name := "Apples", description := "Fresh", price := 3,
    images := none, categories := ["fruit"], stock_quantity := 10, sku := some "A-1",
    attributes := none, created_at := "2024-01-01", updated_at := "2024-01-02" }

def exampleOther : Product :=
  { id := "y", name := "Pears", description := "Ripe", price := 4,
    images := none, categories := ["fruit"], stock_quantity := 2, sku := none,
    attributes := none, created_at := "2024-01-01", updated_at := "2024-01-02" }

def exampleState : ProductState :=
  { products := [exampleProduct, exampleOther],
    currentProduct := some exampleProduct,
    loading := true,
    error := none,
    pagination := { total := 2, page := 1, limit := 10, totalPages := 1 },
    filters := { categoryId := none, minPrice := none, maxPrice := none, search := none,
                 sortBy := none, sortOrder := none, page := none, limit := none } }

/-- Witness for C5: deleting id "x" from `exampleState` clears
`currentProduct` and decrements the total. -/
theorem deleteProduct_fulfilled_spec_witness :
    (deleteProductFulfilled exampleState "x").currentProduct = none ∧
    (deleteProductFulfilled exampleState "x").pagination.total =
      exampleState.pagination.total - 1 :=
  ⟨(deleteProduct_fulfilled_spec exampleState "x").2.2.2.1 exampleProduct rfl rfl,
   (deleteProduct_fulfilled_spec exampleState "x").2.1⟩

/-- C6: for each of the eight async thunks of the product slice, running the
pending case (thunk start) and then the rejected case leaves loading false,
error set to some non-null message, and products, currentProduct, pagination
and filters exactly as they were before the thunk started. -/
theorem productSlice_rejected_spec :
    ∀ r ∈ productRejectedCases, ∀ (s : ProductState) (msg : Option String),
      (r msg (productPending s)).loading = false ∧
      (∃ m, (r msg (productPending s)).error = some m) ∧
      (r msg (productPending s)).products = s.products ∧
      (r msg (productPending s)).currentProduct = s.currentProduct ∧
      (r msg (productPending s)).pagination = s.pagination ∧
      (r msg (productPending s)).filters = s.filters := by
  intro r hr s msg
  simp only [productRejectedCases, List.mem_cons, List.not_mem_nil, or_false] at hr
  rcases hr with rfl | rfl | rfl | rfl | rfl | rfl | rfl | rfl <;>
    exact ⟨rfl, ⟨_, rfl⟩, rfl, rfl, rfl, rfl⟩

/-- Witness for C6: the `fetchProducts` thunk rejected with no message on
`exampleState`. -/
theorem productSlice_rejected_spec_witness :
    (fetchProductsRejected none (productPending exampleState)).loading = false ∧
    (∃ m, (fetchProductsRejected none (productPending exampleState)).error = some m) ∧
    (fetchProductsRejected none (productPending exampleState)).products =
      exampleState.products ∧
    (fetchProductsRejected none (productPending exampleState)).currentProduct =
      exampleState.currentProduct ∧
    (fetchProductsRejected none (productPending exampleState)).pagination =
      exampleState.pagination ∧
    (fetchProductsRejected none (productPending exampleState)).filters =
      exampleState.filters :=
  productSlice_rejected_spec fetchProductsRejected
    (by simp [productRejectedCases]) exampleState none

/-! ### Localization service (`src/lib/localization.ts`)

The service state is its `currentLanguage` field together with the persisted
`localStorage["preferred_language"]` entry; the theorems below concern an
initialized service (`ensureInitialized` is idempotent and has run).  The
backend `POST /languages/switch` is modelled by the `backend` parameter:
`Except.ok ()` for a successful call, `Except.error e` for a call that
rejects with error `e`. -/

def supportedLanguages : List String := ["en", "ar"]

structure LocalizationState where
  currentLanguage : String
  preferredLanguage : Option String
deriving DecidableEq, Repr

/-- `switchLanguage`: throw on an unsupported language; otherwise await the
backend call, and only after it succeeds set `currentLanguage`, persist the
preference and update the document direction; a backend failure is logged
and re-thrown, touching no state. -/
def switchLanguage (st : LocalizationState) (language : String)
    (backend : Except String Unit) : Except String Unit × LocalizationState :=
  if !(supportedLanguages.contains language) then
    (Except.error ("Unsupported language: " ++ language), st)
  else
    match backend with
    | Except.ok () =>
      (Except.ok (), { currentLanguage := language, preferredLanguage := some language })
    | Except.error e => (Except.error e, st)

/-- C4: `switchLanguage` throws for every language outside ["en", "ar"], and
whenever the backend call fails it re-throws that very error and leaves both
the current language and the persisted preference unchanged. -/
theorem switchLanguage_spec (st : LocalizationState) (language : String)
    (backend : Except String Unit) :
    (language ∉ supportedLanguages →
      switchLanguage st language backend =
        (Except.error ("Unsupported language: " ++ language), st)) ∧
    (∀ e, language ∈ supportedLanguages → backend = Except.error e →
      switchLanguage st language backend = (Except.error e, st)) := by
  constructor
  · intro h
    have hc : supportedLanguages.contains language = false := by simpa using h
    simp [switchLanguage, hc, h]
  · intro e hmem hb
    have hc : supportedLanguages.contains language = true := by simpa using hmem
    subst hb
    simp [switchLanguage, hc, hmem]

/-- Witness for C4: "fr" is rejected outright, and a failing backend call
for "ar" is re-thrown with the state intact. -/
theorem switchLanguage_spec_witness :
    switchLanguage ⟨"en", none⟩ "fr" (Except.ok ()) =
      (Except.error "Unsupported language: fr", ⟨"en", none⟩) ∧
    switchLanguage ⟨"en", some "en"⟩ "ar" (Except.error "network down") =
      (Except.error "network down", ⟨"en", some "en"⟩) :=
  ⟨(switchLanguage_spec ⟨"en", none⟩ "fr" (Except.ok ())).1 (by decide),
   (switchLanguage_spec ⟨"en", some "en"⟩ "ar" (Except.error "network down")).2
     "network down" (by decide) rfl⟩

/-- `Translation` of `lib/localization.ts`. -/
structure Translation where
  name : String
  description : String
deriving DecidableEq, Repr

/-- The `LocalizedProduct` interface of `lib/localization.ts`. -/
structure LocalizedProduct where
  id : String
  name : String
  description : String
  price : Int
  images : Option (List String)
  categories : List String
  stock_quantity : Int
  sku : Option String
  attributes : Option (List (String × AttrValue))
  translations : Option (List (String × Translation))
  created_at : String
  updated_at : String
deriving DecidableEq, Repr

/-- `translations[lang]` on the translations record. -/
def lookupTranslation (ts : List (String × Translation)) (lang : String) :
    Option Translation :=
  (ts.find? (fun p => p.1 == lang)).map (fun p => p.2)

/-- The spread `{ ...product, name: tr.name || product.name, description:
tr.description || product.description }`: an empty translation field is
falsy, so the original field survives it. -/
def applyTranslation (product : LocalizedProduct) (tr : Translation) : LocalizedProduct :=
  { product with
    name := if tr.name = "" then product.name else tr.name,
    description := if tr.description = "" then product.description else tr.description }

/-- `applyProductLocalization`: use the requested language's entry if
present, else fall back to the "en" entry, else return the product
untouched.  `lang` defaults to the service's current language. -/
def applyProductLocalization (currentLanguage : String) (product : LocalizedProduct)
    (language : Option String) : LocalizedProduct :=
  let lang := language.getD currentLanguage
  match product.translations with
  | some ts =>
    match lookupTranslation ts lang with
    | some tr => applyTranslation product tr
    | none =>
      match lookupTranslation ts "en" with
      | some tr => applyTranslation product tr
      | none => product
  | none => product

/-- C7: for every product and requested language,
`applyProductLocalization` changes at most the name and description; every
other field is returned as it was, and a product with no translations map is
returned entirely unchanged. -/
theorem applyProductLocalization_frame (currentLanguage : String)
    (product : LocalizedProduct) (language : Option String) :
    (applyProductLocalization currentLanguage product language).id = product.id ∧
    (applyProductLocalization currentLanguage product language).price = product.price ∧
    (applyProductLocalization currentLanguage product language).images = product.images ∧
    (applyProductLocalization currentLanguage product language).categories =
      product.categories ∧
    (applyProductLocalization currentLanguage product language).stock_quantity =
      product.stock_quantity ∧
    (applyProductLocalization currentLanguage product language).sku = product.sku ∧
    (applyProductLocalization currentLanguage product language).attributes =
      product.attributes ∧
    (applyProductLocalization currentLanguage product language).translations =
      product.translations ∧
    (applyProductLocalization currentLanguage product language).created_at =
      product.created_at ∧
    (applyProductLocalization currentLanguage product language).updated_at =
      product.updated_at ∧
    (product.translations = none →
      applyProductLocalization currentLanguage product language = product) := by
  cases htr : product.translations with
  | none => simp [applyProductLocalization, htr]
  | some ts =>
    cases hl : lookupTranslation ts (language.getD currentLanguage) with
    | some tr => simp [applyProductLocalization, applyTranslation, htr, hl]
    | none =>
      cases hen : lookupTranslation ts "en" with
      | some tr => simp [applyProductLocalization, applyTranslation, htr, hl, hen]
      | none => simp [applyProductLocalization, htr, hl, hen]

/-- A product with an Arabic translation whose description is empty, and no
French entry. -/
def exampleLocalized : LocalizedProduct :=
  { id := "p1", name := "Apples", description := "Fresh", price := 3,
    images := none, categories := ["fruit"], stock_quantity := 10, sku := some "A-1",
    attributes := none,
    translations := some [("en", { name := "Apples", description := "Fresh" }),
                          ("ar", { name := "ArApples", description := "" })],
    created_at := "2024-01-01", updated_at := "2024-01-02" }

/-- The same product with no translations map at all. -/
def exampleProductNoTranslations : LocalizedProduct :=
  { id := "p2", name := "Pears", description := "Ripe", price := 4,
    images := none, categories := ["fruit"], stock_quantity := 2, sku := none,
    attributes := none, translations := none,
    created_at := "2024-01-01", updated_at := "2024-01-02" }

/-- Witness for C7 on `exampleLocalized` and a product without translations. -/
theorem applyProductLocalization_frame_witness :
    (applyProductLocalization "en" exampleLocalized (some "ar")).sku =
      exampleLocalized.sku ∧
    (applyProductLocalization "en" exampleLocalized (some "ar")).translations =
      exampleLocalized.translations ∧
    applyProductLocalization "ar" exampleProductNoTranslations none =
      exampleProductNoTranslations :=
  ⟨(applyProductLocalization_frame "en" exampleLocalized (some "ar")).2.2.2.2.2.1,
   (applyProductLocalization_frame "en" exampleLocalized (some "ar")).2.2.2.2.2.2.2.1,
   (applyProductLocalization_frame "ar" exampleProductNoTranslations none).2.2.2.2.2.2.2.2.2.2
     rfl⟩

/-- C8: when the translations map has an entry for the requested language,
name and description come from that entry, each falling back to the
product's original field when the translation field is empty; when that
entry is absent but an "en" entry exists, the English entry is used the same
way. -/
theorem applyProductLocalization_translates (currentLanguage : String)
    (product : LocalizedProduct) (language : Option String)
    (ts : List (String × Translation)) (tr : Translation) :
    (product.translations = some ts →
      lookupTranslation ts (language.getD currentLanguage) = some tr →
      (applyProductLocalization currentLanguage product language).name =
        (if tr.name = "" then product.name else tr.name) ∧
      (applyProductLocalization currentLanguage product language).description =
        (if tr.description = "" then product.description else tr.description)) ∧
    (product.translations = some ts →
      lookupTranslation ts (language.getD currentLanguage) = none →
      lookupTranslation ts "en" = some tr →
      (applyProductLocalization currentLanguage product language).name =
        (if tr.name = "" then product.name else tr.name) ∧
      (applyProductLocalization currentLanguage product language).description =
        (if tr.description = "" then product.description else tr.description)) := by
  constructor
  · intro hts hlang
    rw [applyProductLocalization]
    simp only [hts, hlang]
    exact ⟨rfl, rfl⟩
  · intro hts hlang hen
    rw [applyProductLocalization]
    simp only [hts, hlang, hen]
    exact ⟨rfl, rfl⟩

/-- Witness for C8: the Arabic entry of `exampleLocalized` supplies the
name, its empty description falls back to the original, and a French
request falls back to the English entry. -/
theorem applyProductLocalization_translates_witness :
    ((applyProductLocalization "en" exampleLocalized (some "ar")).name = "ArApples" ∧
      (applyProductLocalization "en" exampleLocalized (some "ar")).description = "Fresh") ∧
    ((applyProductLocalization "en" exampleLocalized (some "fr")).name = "Apples" ∧
      (applyProductLocalization "en" exampleLocalized (some "fr")).description = "Fresh") :=
  ⟨(applyProductLocalization_translates "en" exampleLocalized (some "ar")
      [("en", { name := "Apples", description := "Fresh" }),
       ("ar", { name := "ArApples", description := "" })]
      { name := "ArApples", description := "" }).1 rfl rfl,
   (applyProductLocalization_translates "en" exampleLocalized (some "fr")
      [("en", { name := "Apples", description := "Fresh" }),
       ("ar", { name := "ArApples", description := "" })]
      { name := "Apples", description := "Fresh" }).2 rfl rfl rfl⟩

end GroceriesAdmin
